import Mathlib

/-!
# s3Sync: one-way bucket replication (`s3_sync_minio.go`)

A shallow embedding of `main`: configuration loading and validation, the
construction of the two MinIO clients, and the loop over the channel returned
by `ListObjects` that stats, fetches and stores each listed key.

The object-store SDK is outside the repository.  Its four operations are
embedded over an explicit environment: the two buckets are finite maps from
keys to byte strings, and a fault plan says, for each position of the listing
stream, which of the operations on that entry fail and with which error.
Every call the loop makes and every line it prints is recorded as an `Event`.
-/

namespace S3Sync

/-! ## Data model -/

/-- An object key. -/
abbrev Key := String

/-- One byte of an object payload. -/
abbrev Byte := Fin 256

/-- An object payload. -/
abbrev Bytes := List Byte

/-- The value of a Go `error` returned by an object-store call.  `noSuchKey` is
the not-found response; every other failure carries its message. -/
inductive S3Error where
  | noSuchKey
  | other (msg : String)
  deriving DecidableEq, Repr

/-- The text `%v` prints for an error. -/
def S3Error.text : S3Error → String
  | .noSuchKey => "The specified key does not exist."
  | .other msg => msg

/-- The contents of a bucket: the first binding of a key is its object. -/
abbrev Bucket := List (Key × Bytes)

/-- The object stored under `key`, if any. -/
def Bucket.get : Bucket → Key → Option Bytes
  | [], _ => none
  | (k, v) :: rest, key => if k = key then some v else Bucket.get rest key

/-- The bucket after an object is stored under `key` (an existing object under
that key is replaced). -/
def Bucket.put : Bucket → Key → Bytes → Bucket
  | [], key, body => [(key, body)]
  | (k, v) :: rest, key, body =>
    if k = key then (key, body) :: rest else (k, v) :: Bucket.put rest key body

/-- An item of the channel returned by `ListObjects` (`minio.ObjectInfo`): the
fields the loop reads. -/
structure ObjectInfo where
  Key : String
  Err : Option S3Error
  deriving DecidableEq, Repr

/-- The failures the environment injects into the operations the loop issues
for one listing entry.  `read` gives the number of bytes copied before the
body read fails. -/
structure Faults where
  stat : Option S3Error
  get : Option S3Error
  read : Option (Nat × S3Error)
  put : Option S3Error
  deriving DecidableEq, Repr

/-- No operation fails. -/
def Faults.clean : Faults := ⟨none, none, none, none⟩

/-- The faults of a run, by position in the listing stream. -/
abbrev FaultPlan := Nat → Faults

/-- The plan under which no operation fails. -/
def FaultPlan.clean : FaultPlan := fun _ => Faults.clean

/-- The plan for the rest of the stream after its first `n` entries. -/
def FaultPlan.shift (plan : FaultPlan) (n : Nat) : FaultPlan := fun i => plan (i + n)

/-- A call issued by `main` or a line it writes.  `stdout` is a line written by
`fmt.Printf`, `log` the message handed to `log.Printf`. -/
inductive Event where
  | newClient (endpoint : String)
  | listObjects (bucket : String)
  | statObject (key : Key)
  | getObject (key : Key)
  | readBody (key : Key)
  | putObject (key : Key) (body : Bytes) (size : Nat)
  | stdout (line : String)
  | log (msg : String)
  deriving DecidableEq, Repr

/-- What happened to one listing entry. -/
inductive Outcome where
  | listFailed (e : S3Error)
  | skipped
  | getFailed (e : S3Error)
  | readFailed (e : S3Error)
  | putFailed (e : S3Error)
  | transferred
  deriving DecidableEq, Repr

/-- The entry ended in one of the loop's failure branches. -/
def Outcome.isFailed : Outcome → Bool
  | .listFailed _ => true
  | .getFailed _ => true
  | .readFailed _ => true
  | .putFailed _ => true
  | .skipped => false
  | .transferred => false

/-! ## The object-store operations -/

/-- `localClient.StatObject(ctx, localBucket, key, ...)`: the error it returns
(`nil` is `.ok`).  The object information is discarded by the caller. -/
def statObject (dst : Bucket) (ft : Faults) (key : Key) : Except S3Error Unit :=
  match ft.stat with
  | some e => .error e
  | none =>
    match dst.get key with
    | some _ => .ok ()
    | none => .error .noSuchKey

/-- The stream returned by `GetObject`: the payload behind it (absent when the
source has no such object) and the fault of the read. -/
structure Reader where
  payload : Option Bytes
  fault : Option (Nat × S3Error)
  deriving DecidableEq, Repr

/-- `remoteClient.GetObject(ctx, remoteBucket, key, ...)`. -/
def getObject (src : Bucket) (ft : Faults) (key : Key) : Except S3Error Reader :=
  match ft.get with
  | some e => .error e
  | none => .ok ⟨src.get key, ft.read⟩

/-- `io.Copy(buf, remoteObj)` into a fresh buffer: the buffer afterwards and the
error.  A failing read leaves the bytes copied so far in the buffer. -/
def ioCopy (r : Reader) : Bytes × Option S3Error :=
  match r.fault with
  | some (n, e) => ((r.payload.getD []).take n, some e)
  | none =>
    match r.payload with
    | some body => (body, none)
    | none => ([], some .noSuchKey)

/-- `localClient.PutObject(ctx, localBucket, key, reader, size, ...)`: on
success the first `size` bytes of the reader are the object under `key`; on
failure the bucket is unchanged.  The caller passes `int64(buf.Len())`, the
length of an in-memory buffer, which `int64` holds without wrapping. -/
def putObject (dst : Bucket) (ft : Faults) (key : Key) (body : Bytes) (size : Nat) :
    Except S3Error Bucket :=
  match ft.put with
  | some e => .error e
  | none => .ok (dst.put key (body.take size))

/-! ## The sync loop -/

/-- The record of one iteration of the loop: the destination when the entry was
taken from the channel, the destination when the iteration ended, what the
iteration did and how it ended. -/
structure Report where
  before : Bucket
  dst : Bucket
  events : List Event
  outcome : Outcome
  deriving DecidableEq, Repr

/-- One iteration of `for object := range objectCh`.  Each `continue` of the
source ends the iteration with the report built so far.  The deferred
`remoteObj.Close()` runs when `main` returns and touches neither bucket. -/
def syncObject (src : Bucket) (ft : Faults) (dst : Bucket) (object : ObjectInfo) : Report :=
  match object.Err with
  | some e =>
    ⟨dst, dst, [.log ("Failed to list object: " ++ e.text)], .listFailed e⟩
  | none =>
    let key := object.Key
    let checked := [Event.stdout ("Syncing: " ++ key ++ "\n"), Event.statObject key]
    match statObject dst ft key with
    | .ok _ =>
      ⟨dst, dst, checked ++ [.stdout ("Already exists locally: " ++ key ++ "\n")], .skipped⟩
    | .error _ =>
      match getObject src ft key with
      | .error e =>
        ⟨dst, dst, checked ++ [.getObject key,
          .log ("Failed to get remote object " ++ key ++ ": " ++ e.text)], .getFailed e⟩
      | .ok remoteObj =>
        let copied := ioCopy remoteObj
        let buf := copied.1
        match copied.2 with
        | some e =>
          ⟨dst, dst, checked ++ [.getObject key, .readBody key,
            .log ("Failed to read remote object body: " ++ e.text)], .readFailed e⟩
        | none =>
          match putObject dst ft key buf buf.length with
          | .error e =>
            ⟨dst, dst, checked ++ [.getObject key, .readBody key,
              .putObject key buf buf.length,
              .log ("Failed to upload to local bucket: " ++ e.text)], .putFailed e⟩
          | .ok dst' =>
            ⟨dst, dst', checked ++ [.getObject key, .readBody key,
              .putObject key buf buf.length,
              .stdout ("Successfully synced: " ++ key ++ "\n")], .transferred⟩

/-- The result of the loop: the destination bucket at the end and one report
per entry of the stream, in order. -/
structure Run where
  dst : Bucket
  reports : List Report
  deriving DecidableEq, Repr

/-- The loop `for object := range objectCh { ... }` over the entries the channel
yields, from the destination `dst`. -/
def syncLoop (src : Bucket) : FaultPlan → Bucket → List ObjectInfo → Run
  | _, dst, [] => ⟨dst, []⟩
  | plan, dst, object :: rest =>
    let r := syncObject src (plan 0) dst object
    let run := syncLoop src (plan.shift 1) r.dst rest
    ⟨run.dst, r :: run.reports⟩

/-- Everything the loop did, in order. -/
def Run.events (run : Run) : List Event := (run.reports.map Report.events).flatten

/-! ## `main` -/

/-- What `main` reads from outside the process: the error of `godotenv.Load`
(`none` is `nil`), `os.Getenv` once the file is loaded (an unset variable reads
as the empty string), the error of `minio.New` for an endpoint, access key,
secret key, region and TLS flag, what the channel of `ListObjects` yields, the
contents of the source and destination buckets, and the faults of the run. -/
structure Env where
  dotenvLoad : Option String
  getenv : String → String
  newClient : String → String → String → String → Bool → Option String
  listing : List ObjectInfo
  src : Bucket
  dst : Bucket
  plan : FaultPlan

/-- How `main` ends. -/
inductive Exit where
  | loadEnvFailed (e : String)
  | missingEnv
  | remoteClientFailed (e : String)
  | localClientFailed (e : String)
  | finished
  deriving DecidableEq, Repr

/-- The message of a fatal exit. -/
def Exit.message : Exit → String
  | .loadEnvFailed e => "Error loading .env file: " ++ e
  | .missingEnv => "Missing required environment variables"
  | .remoteClientFailed e => "Failed to create remote MinIO client: " ++ e
  | .localClientFailed e => "Failed to create local MinIO client: " ++ e
  | .finished => ""

/-- The result of `main`: how it ended, the calls it issued and the lines it
wrote, and the destination bucket afterwards. -/
structure MainResult where
  exit : Exit
  events : List Event
  dst : Bucket
  deriving DecidableEq, Repr

/-- The function `main`. -/
def main (env : Env) : MainResult :=
  match env.dotenvLoad with
  | some e => ⟨.loadEnvFailed e, [], env.dst⟩
  | none =>
    let remoteBucket := env.getenv "REMOTE_BUCKET"
    let remoteRegion := env.getenv "REMOTE_REGION"
    let remoteAccessKey := env.getenv "REMOTE_ACCESS_KEY"
    let remoteSecretKey := env.getenv "REMOTE_SECRET_KEY"
    let remoteEndpoint := env.getenv "REMOTE_ENDPOINT"
    let remoteUseSSL := env.getenv "REMOTE_USE_SSL" != "false"
    let localBucket := env.getenv "LOCAL_BUCKET"
    let localRegion := env.getenv "LOCAL_REGION"
    let localAccessKey := env.getenv "LOCAL_ACCESS_KEY"
    let localSecretKey := env.getenv "LOCAL_SECRET_KEY"
    let localEndpoint := env.getenv "LOCAL_ENDPOINT"
    let localUseSSL := env.getenv "LOCAL_USE_SSL" != "false"
    if remoteBucket == "" || localBucket == "" || remoteAccessKey == "" ||
        remoteSecretKey == "" || localAccessKey == "" || localSecretKey == "" ||
        localEndpoint == "" || remoteEndpoint == "" then
      ⟨.missingEnv, [], env.dst⟩
    else
      match env.newClient remoteEndpoint remoteAccessKey remoteSecretKey remoteRegion
          remoteUseSSL with
      | some e => ⟨.remoteClientFailed e, [.newClient remoteEndpoint], env.dst⟩
      | none =>
        match env.newClient localEndpoint localAccessKey localSecretKey localRegion
            localUseSSL with
        | some e =>
          ⟨.localClientFailed e, [.newClient remoteEndpoint, .newClient localEndpoint], env.dst⟩
        | none =>
          let run := syncLoop env.src env.plan env.dst env.listing
          ⟨.finished,
            [.newClient remoteEndpoint, .newClient localEndpoint, .listObjects remoteBucket] ++
              run.events,
            run.dst⟩

/-! ## Auxiliary definitions and scenarios -/

/-- The events every iteration on a key starts with. -/
def checkEvents (key : Key) : List Event :=
  [Event.stdout ("Syncing: " ++ key ++ "\n"), Event.statObject key]

/-- The event is a `PutObject` call. -/
def Event.isPut : Event → Bool
  | .putObject _ _ _ => true
  | _ => false

/-- The event is a `PutObject` call under `key`. -/
def Event.isPutOf (key : Key) : Event → Bool
  | .putObject k _ _ => decide (k = key)
  | _ => false

/-- Faults of an entry whose existence check is refused. -/
def statDenied : Faults := ⟨some (.other "permission denied"), none, none, none⟩

/-- Faults of an entry whose upload fails. -/
def putBroken : Faults := ⟨none, none, none, some (.other "boom")⟩

/-- Faults of an entry whose body read breaks after one byte. -/
def readBroken : Faults := ⟨none, none, some (1, .other "connection reset"), none⟩

/-- The plan under which only the entry at position `n` has faults. -/
def faultAt (n : Nat) (ft : Faults) : FaultPlan := fun i => if i = n then ft else Faults.clean

/-- A source bucket of two objects. -/
def srcAB : Bucket := [("a.txt", [1, 2]), ("b.txt", [3, 4, 5])]

/-- A destination bucket that holds `a.txt` with bytes of its own. -/
def dstA : Bucket := [("a.txt", [9])]

/-- The listing of `srcAB`. -/
def listAB : List ObjectInfo := [⟨"a.txt", none⟩, ⟨"b.txt", none⟩]

/-- The report of an entry that is skipped. -/
def skipReport (dst : Bucket) (o : ObjectInfo) : Report :=
  ⟨dst, dst, checkEvents o.Key ++ [.stdout ("Already exists locally: " ++ o.Key ++ "\n")],
    .skipped⟩

/-- A source bucket of three objects. -/
def srcABC : Bucket := [("a", [1]), ("b", [2]), ("c", [3])]

/-- A process environment in which the eight required settings are set and the
regions and TLS flags are not. -/
def envRequiredOnly : Env where
  dotenvLoad := none
  getenv := fun name =>
    if name = "REMOTE_BUCKET" then "photos"
    else if name = "LOCAL_BUCKET" then "mirror"
    else if name = "REMOTE_ACCESS_KEY" then "rk"
    else if name = "REMOTE_SECRET_KEY" then "rs"
    else if name = "LOCAL_ACCESS_KEY" then "lk"
    else if name = "LOCAL_SECRET_KEY" then "ls"
    else if name = "REMOTE_ENDPOINT" then "remote.example:9000"
    else if name = "LOCAL_ENDPOINT" then "localhost:9000"
    else ""
  newClient := fun _ _ _ _ _ => none
  listing := listAB
  src := srcAB
  dst := dstA
  plan := FaultPlan.clean

/-- The environment `envRequiredOnly` without the destination secret key. -/
def envNoLocalSecret : Env :=
  { envRequiredOnly with
    getenv := fun name => if name = "LOCAL_SECRET_KEY" then "" else envRequiredOnly.getenv name }

/-- A listing stream that yields `a` and `b` and then ends with an enumeration
error. -/
def listABerr : List ObjectInfo :=
  [⟨"a", none⟩, ⟨"b", none⟩, ⟨"", some (.other "listing interrupted")⟩]

/-- A valid environment whose source holds `a`, `b` and `c`, whose destination
is empty, and whose listing breaks after `b`. -/
def envListError : Env :=
  { envRequiredOnly with listing := listABerr, src := srcABC, dst := [] }

/-- A valid environment in which loading the `.env` file fails while the eight
required settings are set in the process environment. -/
def envLoadFails : Env :=
  { envRequiredOnly with dotenvLoad := some "open .env: no such file or directory" }

/-! ## Buckets -/

theorem Bucket.get_put_same (b : Bucket) (key : Key) (body : Bytes) :
    (b.put key body).get key = some body := by
  induction b with
  | nil => simp [Bucket.put, Bucket.get]
  | cons p rest ih =>
    obtain ⟨k, v⟩ := p
    by_cases h : k = key
    · simp [Bucket.put, Bucket.get, h]
    · simp [Bucket.put, Bucket.get, h, ih]

theorem Bucket.get_put_other (b : Bucket) (key k : Key) (body : Bytes) (h : k ≠ key) :
    (b.put key body).get k = b.get k := by
  induction b with
  | nil => simp [Bucket.put, Bucket.get, Ne.symm h]
  | cons p rest ih =>
    obtain ⟨k', v⟩ := p
    by_cases h' : k' = key
    · subst h'
      simp [Bucket.put, Bucket.get, Ne.symm h]
    · simp [Bucket.put, Bucket.get, h', ih]

/-! ## One iteration -/

theorem ioCopy_ok (p : Option Bytes) (f : Option (Nat × S3Error)) (body : Bytes) :
    ioCopy ⟨p, f⟩ = (body, none) ↔ f = none ∧ p = some body := by
  unfold ioCopy
  cases f with
  | some ne => simp
  | none =>
    cases p with
    | none => simp
    | some b => simp

/-- The branches of one iteration. -/
theorem syncObject_cases (src : Bucket) (ft : Faults) (dst : Bucket) (o : ObjectInfo) :
    (∃ e, o.Err = some e ∧ syncObject src ft dst o =
        ⟨dst, dst, [.log ("Failed to list object: " ++ e.text)], .listFailed e⟩) ∨
    (o.Err = none ∧ statObject dst ft o.Key = .ok () ∧ syncObject src ft dst o =
        ⟨dst, dst, checkEvents o.Key ++ [.stdout ("Already exists locally: " ++ o.Key ++ "\n")],
          .skipped⟩) ∨
    (∃ e0 e, o.Err = none ∧ statObject dst ft o.Key = .error e0 ∧ ft.get = some e ∧
      syncObject src ft dst o =
        ⟨dst, dst, checkEvents o.Key ++ [.getObject o.Key,
          .log ("Failed to get remote object " ++ o.Key ++ ": " ++ e.text)], .getFailed e⟩) ∨
    (∃ e0 buf e, o.Err = none ∧ statObject dst ft o.Key = .error e0 ∧ ft.get = none ∧
      ioCopy ⟨src.get o.Key, ft.read⟩ = (buf, some e) ∧
      syncObject src ft dst o =
        ⟨dst, dst, checkEvents o.Key ++ [.getObject o.Key, .readBody o.Key,
          .log ("Failed to read remote object body: " ++ e.text)], .readFailed e⟩) ∨
    (∃ e0 body e, o.Err = none ∧ statObject dst ft o.Key = .error e0 ∧ ft.get = none ∧
      ft.read = none ∧ src.get o.Key = some body ∧ ft.put = some e ∧
      syncObject src ft dst o =
        ⟨dst, dst, checkEvents o.Key ++ [.getObject o.Key, .readBody o.Key,
          .putObject o.Key body body.length,
          .log ("Failed to upload to local bucket: " ++ e.text)], .putFailed e⟩) ∨
    (∃ e0 body, o.Err = none ∧ statObject dst ft o.Key = .error e0 ∧ ft.get = none ∧
      ft.read = none ∧ src.get o.Key = some body ∧ ft.put = none ∧
      syncObject src ft dst o =
        ⟨dst, dst.put o.Key body, checkEvents o.Key ++ [.getObject o.Key, .readBody o.Key,
          .putObject o.Key body body.length,
          .stdout ("Successfully synced: " ++ o.Key ++ "\n")], .transferred⟩) := by
  cases hErr : o.Err with
  | some e => left; exact ⟨e, rfl, by simp [syncObject, hErr]⟩
  | none =>
    right
    cases hstat : statObject dst ft o.Key with
    | ok u => left; exact ⟨rfl, rfl, by simp [syncObject, hErr, hstat, checkEvents]⟩
    | error e0 =>
      right
      cases hget : ft.get with
      | some e =>
        left; exact ⟨e0, e, rfl, rfl, rfl, by simp [syncObject, hErr, hstat, getObject, hget, checkEvents]⟩
      | none =>
        right
        cases hcopy : ioCopy ⟨src.get o.Key, ft.read⟩ with
        | mk buf err =>
          cases err with
          | some e =>
            left
            exact ⟨e0, buf, e, rfl, rfl, rfl, rfl,
              by simp [syncObject, hErr, hstat, getObject, hget, hcopy, checkEvents]⟩
          | none =>
            right
            obtain ⟨hread, hsrc⟩ := (ioCopy_ok _ _ _).1 hcopy
            cases hput : ft.put with
            | some e =>
              left
              exact ⟨e0, buf, e, rfl, rfl, rfl, hread, hsrc, rfl,
                by simp [syncObject, hErr, hstat, getObject, hget, hcopy, putObject, hput, checkEvents]⟩
            | none =>
              right
              exact ⟨e0, buf, rfl, rfl, rfl, hread, hsrc, rfl,
                by simp [syncObject, hErr, hstat, getObject, hget, hcopy, putObject, hput, checkEvents]⟩

theorem statObject_ok (dst : Bucket) (ft : Faults) (key : Key) :
    statObject dst ft key = .ok () ↔ ft.stat = none ∧ ∃ v, dst.get key = some v := by
  unfold statObject
  cases ft.stat with
  | some e => simp
  | none =>
    cases dst.get key with
    | none => simp
    | some v => simp

theorem syncObject_before (src : Bucket) (ft : Faults) (dst : Bucket) (o : ObjectInfo) :
    (syncObject src ft dst o).before = dst := by
  rcases syncObject_cases src ft dst o with ⟨_, _, h⟩ | ⟨_, _, h⟩ | ⟨_, _, _, _, _, h⟩ |
    ⟨_, _, _, _, _, _, _, h⟩ | ⟨_, _, _, _, _, _, _, _, _, h⟩ | ⟨_, _, _, _, _, _, _, _, h⟩ <;>
  rw [h]

/-- An iteration leaves the destination as it was, or stores the whole source
payload under the entry's key and ends as transferred. -/
theorem syncObject_dst (src : Bucket) (ft : Faults) (dst : Bucket) (o : ObjectInfo) :
    (syncObject src ft dst o).dst = dst ∨
      ∃ body, src.get o.Key = some body ∧
        (syncObject src ft dst o).outcome = .transferred ∧
        (syncObject src ft dst o).dst = dst.put o.Key body := by
  rcases syncObject_cases src ft dst o with ⟨_, _, h⟩ | ⟨_, _, h⟩ | ⟨_, _, _, _, _, h⟩ |
    ⟨_, _, _, _, _, _, _, h⟩ | ⟨_, _, _, _, _, _, _, _, _, h⟩ | ⟨_, body, _, _, _, _, hs, _, h⟩
  · left; rw [h]
  · left; rw [h]
  · left; rw [h]
  · left; rw [h]
  · left; rw [h]
  · right; exact ⟨body, hs, by rw [h], by rw [h]⟩

theorem syncObject_get_other (src : Bucket) (ft : Faults) (dst : Bucket) (o : ObjectInfo)
    (k : Key) (hk : k ≠ o.Key) : (syncObject src ft dst o).dst.get k = dst.get k := by
  rcases syncObject_dst src ft dst o with h | ⟨body, _, _, h⟩
  · rw [h]
  · rw [h, Bucket.get_put_other _ _ _ _ hk]

/-- After an iteration a key holds what it held before, or the source's bytes. -/
theorem syncObject_get (src : Bucket) (ft : Faults) (dst : Bucket) (o : ObjectInfo) (k : Key) :
    (syncObject src ft dst o).dst.get k = dst.get k ∨
      ∃ body, src.get k = some body ∧ (syncObject src ft dst o).dst.get k = some body := by
  rcases syncObject_dst src ft dst o with h | ⟨body, hs, _, h⟩
  · left; rw [h]
  · by_cases hk : k = o.Key
    · subst hk
      right
      exact ⟨body, hs, by rw [h, Bucket.get_put_same]⟩
    · left
      rw [h, Bucket.get_put_other _ _ _ _ hk]

/-! ## The loop -/

theorem syncLoop_nil (src : Bucket) (plan : FaultPlan) (dst : Bucket) :
    syncLoop src plan dst [] = ⟨dst, []⟩ := rfl

theorem syncLoop_cons (src : Bucket) (plan : FaultPlan) (dst : Bucket) (o : ObjectInfo)
    (rest : List ObjectInfo) :
    syncLoop src plan dst (o :: rest) =
      ⟨(syncLoop src (plan.shift 1) (syncObject src (plan 0) dst o).dst rest).dst,
        syncObject src (plan 0) dst o ::
          (syncLoop src (plan.shift 1) (syncObject src (plan 0) dst o).dst rest).reports⟩ := rfl

theorem syncLoop_reports_length (src : Bucket) (plan : FaultPlan) (dst : Bucket)
    (listing : List ObjectInfo) :
    (syncLoop src plan dst listing).reports.length = listing.length := by
  induction listing generalizing plan dst with
  | nil => rfl
  | cons o rest ih => simp [syncLoop_cons, ih]

/-- The report at a position of the stream is the loop body run on the entry at
that position, under that position's faults, from the destination recorded in
the report. -/
theorem syncLoop_report (src : Bucket) (plan : FaultPlan) (dst : Bucket)
    (listing : List ObjectInfo) (i : Nat) (o : ObjectInfo) (r : Report)
    (ho : listing[i]? = some o) (hr : (syncLoop src plan dst listing).reports[i]? = some r) :
    r = syncObject src (plan i) r.before o := by
  induction listing generalizing plan dst i with
  | nil => simp at ho
  | cons o' rest ih =>
    cases i with
    | zero =>
      simp [syncLoop_cons] at ho hr
      subst ho
      rw [← hr, syncObject_before]
    | succ n =>
      simp [syncLoop_cons] at ho hr
      exact ih (plan.shift 1) _ n ho hr

/-- At the end of the loop a key holds what it held at the start, or the
source's bytes. -/
theorem syncLoop_get (src : Bucket) (plan : FaultPlan) (dst : Bucket)
    (listing : List ObjectInfo) (k : Key) :
    (syncLoop src plan dst listing).dst.get k = dst.get k ∨
      ∃ body, src.get k = some body ∧ (syncLoop src plan dst listing).dst.get k = some body := by
  induction listing generalizing plan dst with
  | nil => left; rfl
  | cons o rest ih =>
    rw [syncLoop_cons]
    rcases ih (plan.shift 1) (syncObject src (plan 0) dst o).dst with h | h
    · rcases syncObject_get src (plan 0) dst o k with h' | ⟨body, hs, h'⟩
      · left; exact h.trans h'
      · right; exact ⟨body, hs, h.trans h'⟩
    · right; exact h

/-- A key that holds the source's bytes keeps them to the end of the loop. -/
theorem syncLoop_keeps_synced (src : Bucket) (plan : FaultPlan) (dst : Bucket)
    (listing : List ObjectInfo) (k : Key) (body : Bytes)
    (hs : src.get k = some body) (hd : dst.get k = some body) :
    (syncLoop src plan dst listing).dst.get k = some body := by
  rcases syncLoop_get src plan dst listing k with h | ⟨body', hs', h⟩
  · rw [h, hd]
  · rw [h, ← hs', hs]

/-- A key present in the destination stays present to the end of the loop. -/
theorem syncLoop_keeps_present (src : Bucket) (plan : FaultPlan) (dst : Bucket)
    (listing : List ObjectInfo) (k : Key) (v : Bytes) (hd : dst.get k = some v) :
    ∃ w, (syncLoop src plan dst listing).dst.get k = some w := by
  rcases syncLoop_get src plan dst listing k with h | ⟨body', _, h⟩
  · exact ⟨v, by rw [h, hd]⟩
  · exact ⟨body', h⟩

/-! ## Existence short-circuit and the existence check -/

/-- C5 (existence short-circuit).  For every entry of the listing whose key
exists at the destination when it is checked, that is, whose `StatObject`
returns without error, the iteration ends as skipped, issues no `GetObject`, no
body read and no `PutObject`, and leaves the destination as it was. -/
theorem existence_short_circuit (src : Bucket) (plan : FaultPlan) (dst : Bucket)
    (listing : List ObjectInfo) (i : Nat) (o : ObjectInfo) (r : Report)
    (ho : listing[i]? = some o) (hr : (syncLoop src plan dst listing).reports[i]? = some r)
    (hlist : o.Err = none) (hstat : statObject r.before (plan i) o.Key = .ok ()) :
    r.outcome = .skipped ∧
      r.events = [.stdout ("Syncing: " ++ o.Key ++ "\n"), .statObject o.Key,
        .stdout ("Already exists locally: " ++ o.Key ++ "\n")] ∧
      (∀ k, Event.getObject k ∉ r.events) ∧ (∀ k, Event.readBody k ∉ r.events) ∧
      (∀ k body size, Event.putObject k body size ∉ r.events) ∧
      r.dst = r.before := by
  have hrep := syncLoop_report src plan dst listing i o r ho hr
  rcases syncObject_cases src (plan i) r.before o with ⟨_, he, _⟩ | ⟨_, _, h⟩ |
    ⟨_, _, _, hs, _⟩ | ⟨_, _, _, _, hs, _⟩ | ⟨_, _, _, _, hs, _⟩ | ⟨_, _, _, hs, _⟩
  · rw [hlist] at he; cases he
  · rw [← hrep] at h
    rw [h]
    simp [checkEvents]
  all_goals (rw [hstat] at hs; cases hs)

/-- C5 at a listing of two keys of which the first is at the destination. -/
theorem existence_short_circuit_witness :
    (syncLoop [("a.txt", [1, 2]), ("b.txt", [3])] FaultPlan.clean [("a.txt", [9])]
        [⟨"a.txt", none⟩, ⟨"b.txt", none⟩]).reports[0]? =
      some ⟨[("a.txt", [9])], [("a.txt", [9])],
        [.stdout "Syncing: a.txt\n", .statObject "a.txt",
          .stdout "Already exists locally: a.txt\n"], .skipped⟩ ∧
    (∀ k, Event.getObject k ∉ [Event.stdout "Syncing: a.txt\n", .statObject "a.txt",
          .stdout "Already exists locally: a.txt\n"]) :=
  ⟨by decide,
    (existence_short_circuit [("a.txt", [1, 2]), ("b.txt", [3])] FaultPlan.clean [("a.txt", [9])]
      [⟨"a.txt", none⟩, ⟨"b.txt", none⟩] 0 ⟨"a.txt", none⟩
      ⟨[("a.txt", [9])], [("a.txt", [9])],
        [.stdout "Syncing: a.txt\n", .statObject "a.txt",
          .stdout "Already exists locally: a.txt\n"], .skipped⟩
      (by decide) (by decide) rfl rfl).2.2.1⟩

/-- C3, as stated, fails: the existence check of `x` is refused with an error
that is not the not-found response, and the loop fetches `x` and the entry ends
as transferred. -/
theorem stat_error_is_transferred :
    statObject [] statDenied "x" = .error (.other "permission denied") ∧
      S3Error.other "permission denied" ≠ S3Error.noSuchKey ∧
      (syncLoop [("x", [1, 2, 3])] (fun _ => statDenied) [] [⟨"x", none⟩]).reports.map
        Report.outcome = [.transferred] ∧
      Event.getObject "x" ∈
        (syncLoop [("x", [1, 2, 3])] (fun _ => statDenied) [] [⟨"x", none⟩]).events := by
  refine ⟨rfl, by decide, by decide, by decide⟩

/-- C3, amended.  For every entry whose `StatObject` returns an error, whether
not-found or any other, the loop goes on to fetch the key: `GetObject` is
issued for it, the entry never ends as skipped, it ends as transferred exactly
when the get, the body read and the put all succeed, and as failed otherwise. -/
theorem stat_error_falls_through (src : Bucket) (plan : FaultPlan) (dst : Bucket)
    (listing : List ObjectInfo) (i : Nat) (o : ObjectInfo) (r : Report) (e : S3Error)
    (ho : listing[i]? = some o) (hr : (syncLoop src plan dst listing).reports[i]? = some r)
    (hlist : o.Err = none) (hstat : statObject r.before (plan i) o.Key = .error e) :
    r.outcome ≠ .skipped ∧ Event.getObject o.Key ∈ r.events ∧
      (r.outcome = .transferred ↔
        (plan i).get = none ∧ (plan i).read = none ∧ (plan i).put = none ∧
          ∃ body, src.get o.Key = some body) ∧
      (r.outcome ≠ .transferred → r.outcome.isFailed = true) := by
  have hrep := syncLoop_report src plan dst listing i o r ho hr
  rcases syncObject_cases src (plan i) r.before o with ⟨_, he, _⟩ | ⟨_, hs, _⟩ |
    ⟨_, _, _, _, hg, h⟩ | ⟨_, _, _, _, _, hg, hc, h⟩ | ⟨_, _, _, _, _, hg, hread, hsrc, hp, h⟩ |
    ⟨_, body, _, _, hg, hread, hsrc, hp, h⟩
  · rw [hlist] at he; cases he
  · rw [hstat] at hs; cases hs
  · rw [← hrep] at h
    rw [h]
    simp [checkEvents, hg, Outcome.isFailed]
  · rw [← hrep] at h
    rw [h]
    have hno : ¬ ((plan i).read = none ∧ ∃ body, src.get o.Key = some body) := by
      rintro ⟨h1, body, h2⟩
      have := (ioCopy_ok (src.get o.Key) (plan i).read body).2 ⟨h1, h2⟩
      rw [this] at hc
      cases hc
    simp only [not_and] at hno
    simp [checkEvents, Outcome.isFailed]
    intro _ h1 _ body hb
    exact hno h1 ⟨body, hb⟩
  · rw [← hrep] at h
    rw [h]
    simp [checkEvents, hp, Outcome.isFailed]
  · rw [← hrep] at h
    rw [h]
    simp [checkEvents, hg, hread, hp, hsrc]

/-- C3 amended, at the refused existence check of `x`. -/
theorem stat_error_falls_through_witness :
    statObject [] statDenied "x" = .error (.other "permission denied") ∧
      Event.getObject "x" ∈ [Event.stdout "Syncing: x\n", .statObject "x", .getObject "x",
        .readBody "x", .putObject "x" [1, 2, 3] 3, .stdout "Successfully synced: x\n"] :=
  ⟨rfl,
    (stat_error_falls_through [("x", [1, 2, 3])] (fun _ => statDenied) [] [⟨"x", none⟩] 0
      ⟨"x", none⟩
      ⟨[], [("x", [1, 2, 3])], [.stdout "Syncing: x\n", .statObject "x", .getObject "x",
        .readBody "x", .putObject "x" [1, 2, 3] 3, .stdout "Successfully synced: x\n"],
        .transferred⟩
      (.other "permission denied") (by decide) (by decide) rfl rfl).2.1⟩

theorem Run.events_cons (src : Bucket) (plan : FaultPlan) (dst : Bucket) (o : ObjectInfo)
    (rest : List ObjectInfo) :
    (syncLoop src plan dst (o :: rest)).events =
      (syncObject src (plan 0) dst o).events ++
        (syncLoop src (plan.shift 1) (syncObject src (plan 0) dst o).dst rest).events := by
  simp [Run.events, syncLoop_cons]

/-- The `PutObject` calls of one iteration: none, or one under the entry's key
carrying the whole source payload. -/
theorem syncObject_puts (src : Bucket) (ft : Faults) (dst : Bucket) (o : ObjectInfo) :
    ((syncObject src ft dst o).events.filter Event.isPut = [] ∧
        (syncObject src ft dst o).dst = dst) ∨
      ∃ body, src.get o.Key = some body ∧ ft.get = none ∧ ft.read = none ∧
        (syncObject src ft dst o).events.filter Event.isPut =
          [.putObject o.Key body body.length] ∧
        ∃ pre post, (syncObject src ft dst o).events =
            pre ++ Event.putObject o.Key body body.length :: post ∧
          Event.readBody o.Key ∈ pre := by
  rcases syncObject_cases src ft dst o with ⟨_, _, h⟩ | ⟨_, _, h⟩ | ⟨_, _, _, _, _, h⟩ |
    ⟨_, _, _, _, _, _, _, h⟩ | ⟨_, body, e, _, _, hg, hr, hs, _, h⟩ |
    ⟨_, body, _, _, hg, hr, hs, _, h⟩
  · left; rw [h]; simp [Event.isPut]
  · left; rw [h]; simp [checkEvents, Event.isPut]
  · left; rw [h]; simp [checkEvents, Event.isPut]
  · left; rw [h]; simp [checkEvents, Event.isPut]
  · right
    refine ⟨body, hs, hg, hr, by rw [h]; simp [checkEvents, Event.isPut], ?_⟩
    exact ⟨checkEvents o.Key ++ [.getObject o.Key, .readBody o.Key],
      [.log ("Failed to upload to local bucket: " ++ e.text)], by rw [h]; simp, by simp⟩
  · right
    refine ⟨body, hs, hg, hr, by rw [h]; simp [checkEvents, Event.isPut], ?_⟩
    exact ⟨checkEvents o.Key ++ [.getObject o.Key, .readBody o.Key],
      [.stdout ("Successfully synced: " ++ o.Key ++ "\n")], by rw [h]; simp, by simp⟩

theorem isPut_of_isPutOf (k : Key) (ev : Event) (h : ev.isPutOf k = true) : ev.isPut = true := by
  cases ev <;> simp_all [Event.isPutOf, Event.isPut]

theorem filter_isPutOf_eq_nil (k : Key) (evs : List Event) (h : evs.filter Event.isPut = []) :
    evs.filter (Event.isPutOf k) = [] := by
  rw [List.filter_eq_nil_iff] at h ⊢
  intro ev hev hk
  exact h ev hev (isPut_of_isPutOf k ev hk)

/-- The `PutObject` calls of one iteration under a key: at most one, and none
when the key is not the entry's. -/
theorem syncObject_putsOf (src : Bucket) (ft : Faults) (dst : Bucket) (o : ObjectInfo)
    (k : Key) :
    ((syncObject src ft dst o).events.filter (Event.isPutOf k)).length ≤ 1 ∧
      (k ≠ o.Key → (syncObject src ft dst o).events.filter (Event.isPutOf k) = []) := by
  rcases syncObject_puts src ft dst o with ⟨h, _⟩ | ⟨body, _, _, _, h, _⟩
  · rw [filter_isPutOf_eq_nil k _ h]
    simp
  · have hsub : (syncObject src ft dst o).events.filter (Event.isPutOf k) =
        ((syncObject src ft dst o).events.filter Event.isPut).filter (Event.isPutOf k) := by
      rw [List.filter_filter]
      apply List.filter_congr
      intro ev _
      cases hk : ev.isPutOf k
      · simp
      · simp [isPut_of_isPutOf k ev hk]
    rw [hsub, h]
    constructor
    · exact (List.length_filter_le _ _).trans (by simp)
    · intro hk
      simp [Event.isPutOf, Ne.symm hk]

/-- A key that is not listed gets no `PutObject`. -/
theorem syncLoop_putsOf_unlisted (src : Bucket) (plan : FaultPlan) (dst : Bucket)
    (listing : List ObjectInfo) (k : Key) (hk : k ∉ listing.map ObjectInfo.Key) :
    (syncLoop src plan dst listing).events.filter (Event.isPutOf k) = [] := by
  induction listing generalizing plan dst with
  | nil => rfl
  | cons o rest ih =>
    simp only [List.map_cons, List.mem_cons, not_or] at hk
    rw [Run.events_cons, List.filter_append, (syncObject_putsOf src (plan 0) dst o k).2 hk.1,
      ih _ _ hk.2]
    rfl

/-- Over a listing of distinct keys every key gets at most one `PutObject`. -/
theorem syncLoop_putsOf_le (src : Bucket) (plan : FaultPlan) (dst : Bucket)
    (listing : List ObjectInfo) (k : Key) (hnd : (listing.map ObjectInfo.Key).Nodup) :
    ((syncLoop src plan dst listing).events.filter (Event.isPutOf k)).length ≤ 1 := by
  induction listing generalizing plan dst with
  | nil => simp [Run.events, syncLoop_nil]
  | cons o rest ih =>
    simp only [List.map_cons, List.nodup_cons] at hnd
    rw [Run.events_cons, List.filter_append, List.length_append]
    by_cases hk : k = o.Key
    · subst hk
      rw [syncLoop_putsOf_unlisted src _ _ rest _ hnd.1]
      simpa using (syncObject_putsOf src (plan 0) dst o o.Key).1
    · rw [(syncObject_putsOf src (plan 0) dst o k).2 hk]
      simpa using ih (plan.shift 1) _ hnd.2

/-- C8 (no partial write).  Each iteration issues at most one `PutObject`; a
`PutObject` is issued only under the entry's own key, after the body read, with
the whole source payload as body (the read returned it without error) and its
length as size; when `GetObject` or the body read fails no `PutObject` is
issued and the destination is as it was; and over a listing of distinct keys
every key gets at most one `PutObject` in the whole run. -/
theorem no_partial_write (src : Bucket) (plan : FaultPlan) (dst : Bucket)
    (listing : List ObjectInfo) :
    (∀ i o r, listing[i]? = some o → (syncLoop src plan dst listing).reports[i]? = some r →
      (r.events.filter Event.isPut).length ≤ 1 ∧
      (∀ k body size, Event.putObject k body size ∈ r.events →
        k = o.Key ∧ size = body.length ∧ src.get o.Key = some body ∧
        (plan i).get = none ∧ ioCopy ⟨src.get o.Key, (plan i).read⟩ = (body, none) ∧
        ∃ pre post, r.events = pre ++ Event.putObject k body size :: post ∧
          Event.readBody o.Key ∈ pre) ∧
      ((plan i).get ≠ none ∨ (ioCopy ⟨src.get o.Key, (plan i).read⟩).2 ≠ none →
        (∀ k body size, Event.putObject k body size ∉ r.events) ∧ r.dst = r.before)) ∧
    ((listing.map ObjectInfo.Key).Nodup →
      ∀ k, ((syncLoop src plan dst listing).events.filter (Event.isPutOf k)).length ≤ 1) := by
  refine ⟨?_, fun hnd k => syncLoop_putsOf_le src plan dst listing k hnd⟩
  intro i o r ho hr
  have hrep := syncLoop_report src plan dst listing i o r ho hr
  have hputs := syncObject_puts src (plan i) r.before o
  rw [← hrep] at hputs
  have hmem : ∀ k body size, Event.putObject k body size ∈ r.events ↔
      Event.putObject k body size ∈ r.events.filter Event.isPut := by
    intro k body size
    simp [List.mem_filter, Event.isPut]
  rcases hputs with ⟨h, hd⟩ | ⟨body, hs, hg, hread, h, pre, post, hev, hpre⟩
  · refine ⟨by rw [h]; simp, ?_, ?_⟩
    · intro k body size hin
      rw [hmem, h] at hin
      cases hin
    · intro _
      refine ⟨?_, hd⟩
      intro k body size hin
      rw [hmem, h] at hin
      cases hin
  · have hcopy : ioCopy ⟨src.get o.Key, (plan i).read⟩ = (body, none) :=
      (ioCopy_ok _ _ _).2 ⟨hread, hs⟩
    refine ⟨by rw [h]; simp, ?_, ?_⟩
    · intro k body' size hin
      rw [hmem, h] at hin
      simp at hin
      obtain ⟨rfl, rfl, rfl⟩ := hin
      exact ⟨rfl, rfl, hs, hg, hcopy, pre, post, hev, hpre⟩
    · intro hfail
      rcases hfail with hf | hf
      · exact absurd hg hf
      · rw [hcopy] at hf
        exact absurd rfl hf

/-- C8 at a listing whose first body read breaks after one byte: no `PutObject`
is issued for that key and the destination is untouched. -/
theorem no_partial_write_witness :
    (ioCopy ⟨srcAB.get "a.txt", (faultAt 0 readBroken 0).read⟩).2 ≠ none ∧
      ((∀ k body size, Event.putObject k body size ∉
          [Event.stdout "Syncing: a.txt\n", .statObject "a.txt", .getObject "a.txt",
            .readBody "a.txt", .log "Failed to read remote object body: connection reset"]) ∧
        ([] : Bucket) = []) :=
  ⟨by decide,
    ((no_partial_write srcAB (faultAt 0 readBroken) [] listAB).1 0 ⟨"a.txt", none⟩
      ⟨[], [], [.stdout "Syncing: a.txt\n", .statObject "a.txt", .getObject "a.txt",
          .readBody "a.txt", .log "Failed to read remote object body: connection reset"],
        .readFailed (.other "connection reset")⟩
      (by decide) (by decide)).2.2 (Or.inr (by decide))⟩

/-- C2 (completeness on success).  After a run in which no entry ends in a
failure, every listed key that was absent from the destination when it was
checked is in the destination with exactly the source's bytes. -/
theorem completeness_on_success (src : Bucket) (plan : FaultPlan) (dst : Bucket)
    (listing : List ObjectInfo)
    (hok : ∀ r ∈ (syncLoop src plan dst listing).reports, r.outcome.isFailed = false)
    (i : Nat) (o : ObjectInfo) (r : Report)
    (ho : listing[i]? = some o) (hr : (syncLoop src plan dst listing).reports[i]? = some r)
    (habsent : r.before.get o.Key = none) :
    ∃ body, src.get o.Key = some body ∧
      (syncLoop src plan dst listing).dst.get o.Key = some body := by
  induction listing generalizing plan dst i with
  | nil => simp at ho
  | cons o' rest ih =>
    rw [syncLoop_cons] at hok hr ⊢
    cases i with
    | succ n =>
      simp only [List.getElem?_cons_succ] at ho hr
      exact ih (plan.shift 1) _ (fun r' hr' => hok r' (List.mem_cons_of_mem _ hr')) n ho hr
    | zero =>
      simp only [List.getElem?_cons_zero, Option.some.injEq] at ho hr
      subst ho
      have hfail := hok _ (List.mem_cons_self _ _)
      rw [← hr, syncObject_before] at habsent
      have hnstat : statObject dst (plan 0) o'.Key ≠ .ok () := by
        intro h
        obtain ⟨_, v, hv⟩ := (statObject_ok _ _ _).1 h
        rw [habsent] at hv
        cases hv
      rcases syncObject_cases src (plan 0) dst o' with ⟨_, _, h⟩ | ⟨_, hs, _⟩ |
        ⟨_, _, _, _, _, h⟩ | ⟨_, _, _, _, _, _, _, h⟩ | ⟨_, _, _, _, _, _, _, _, _, h⟩ |
        ⟨_, body, _, _, _, _, hsrc, _, h⟩
      · rw [h] at hfail; simp [Outcome.isFailed] at hfail
      · exact absurd hs hnstat
      · rw [h] at hfail; simp [Outcome.isFailed] at hfail
      · rw [h] at hfail; simp [Outcome.isFailed] at hfail
      · rw [h] at hfail; simp [Outcome.isFailed] at hfail
      · refine ⟨body, hsrc, ?_⟩
        apply syncLoop_keeps_synced _ _ _ _ _ _ hsrc
        rw [h]
        exact Bucket.get_put_same _ _ _

/-- C2 at the source {a.txt, b.txt} and the destination {a.txt}: `a.txt` is
skipped, `b.txt` is transferred, and the destination ends with both keys,
`b.txt` holding the source's bytes. -/
theorem completeness_on_success_witness :
    (∀ r ∈ (syncLoop srcAB FaultPlan.clean dstA listAB).reports, r.outcome.isFailed = false) ∧
      (syncLoop srcAB FaultPlan.clean dstA listAB).reports.map Report.outcome =
        [.skipped, .transferred] ∧
      (syncLoop srcAB FaultPlan.clean dstA listAB).dst = [("a.txt", [9]), ("b.txt", [3, 4, 5])] ∧
      ∃ body, srcAB.get "b.txt" = some body ∧
        (syncLoop srcAB FaultPlan.clean dstA listAB).dst.get "b.txt" = some body :=
  ⟨by decide, by decide, by decide,
    completeness_on_success srcAB FaultPlan.clean dstA listAB (by decide) 1 ⟨"b.txt", none⟩
      ⟨dstA, [("a.txt", [9]), ("b.txt", [3, 4, 5])],
        [.stdout "Syncing: b.txt\n", .statObject "b.txt", .getObject "b.txt", .readBody "b.txt",
          .putObject "b.txt" [3, 4, 5] 3, .stdout "Successfully synced: b.txt\n"], .transferred⟩
      (by decide) (by decide) (by decide)⟩

/-- After a run without failures every listed key is in the destination. -/
theorem syncLoop_listed_present (src : Bucket) (plan : FaultPlan) (dst : Bucket)
    (listing : List ObjectInfo)
    (hok : ∀ r ∈ (syncLoop src plan dst listing).reports, r.outcome.isFailed = false) :
    ∀ o ∈ listing, o.Err = none ∧ ∃ v, (syncLoop src plan dst listing).dst.get o.Key = some v := by
  induction listing generalizing plan dst with
  | nil => intro o ho; cases ho
  | cons o' rest ih =>
    rw [syncLoop_cons] at hok ⊢
    intro o ho
    rcases List.mem_cons.1 ho with rfl | hrest
    · have hfail := hok _ (List.mem_cons_self _ _)
      rcases syncObject_cases src (plan 0) dst o with ⟨_, _, h⟩ | ⟨he, hs, h⟩ |
        ⟨_, _, _, _, _, h⟩ | ⟨_, _, _, _, _, _, _, h⟩ | ⟨_, _, _, _, _, _, _, _, _, h⟩ |
        ⟨_, body, he, _, _, _, _, _, h⟩
      · rw [h] at hfail; simp [Outcome.isFailed] at hfail
      · obtain ⟨_, v, hv⟩ := (statObject_ok _ _ _).1 hs
        refine ⟨he, ?_⟩
        apply syncLoop_keeps_present _ _ _ _ _ v
        rw [h]
        exact hv
      · rw [h] at hfail; simp [Outcome.isFailed] at hfail
      · rw [h] at hfail; simp [Outcome.isFailed] at hfail
      · rw [h] at hfail; simp [Outcome.isFailed] at hfail
      · refine ⟨he, ?_⟩
        apply syncLoop_keeps_present _ _ _ _ _ body
        rw [h]
        exact Bucket.get_put_same _ _ _
    · exact ih (plan.shift 1) _ (fun r' hr' => hok r' (List.mem_cons_of_mem _ hr')) o hrest

/-- When every listed key is in the destination and no existence check fails,
the loop skips every entry and leaves the destination as it was. -/
theorem syncLoop_all_skipped (src : Bucket) (plan : FaultPlan) (dst : Bucket)
    (listing : List ObjectInfo)
    (hpresent : ∀ o ∈ listing, o.Err = none ∧ ∃ v, dst.get o.Key = some v)
    (hstat : ∀ i, i < listing.length → (plan i).stat = none) :
    syncLoop src plan dst listing = ⟨dst, listing.map (skipReport dst)⟩ := by
  induction listing generalizing plan with
  | nil => rfl
  | cons o rest ih =>
    obtain ⟨he, v, hv⟩ := hpresent o (List.mem_cons_self _ _)
    have hs : statObject dst (plan 0) o.Key = .ok () :=
      (statObject_ok _ _ _).2 ⟨hstat 0 (by simp), v, hv⟩
    have hstep : syncObject src (plan 0) dst o = skipReport dst o := by
      rcases syncObject_cases src (plan 0) dst o with ⟨_, he', _⟩ | ⟨_, _, h⟩ |
        ⟨_, _, _, hs', _⟩ | ⟨_, _, _, _, hs', _⟩ | ⟨_, _, _, _, hs', _⟩ | ⟨_, _, _, hs', _⟩
      · rw [he] at he'; cases he'
      · rw [h]; rfl
      all_goals (rw [hs] at hs'; cases hs')
    rw [syncLoop_cons, hstep]
    have hrest := ih (plan.shift 1) (fun o' ho' => hpresent o' (List.mem_cons_of_mem _ ho'))
      (fun i hi => hstat (i + 1) (by simpa using hi))
    simp only [skipReport] at hrest ⊢
    rw [hrest]
    simp [skipReport]

/-- C6 (idempotence).  When a run in which no entry ends in a failure is
followed by a second run over the same listing and the same source in which no
existence check fails, the second run ends every entry as skipped, issues no
`GetObject` and no `PutObject`, and leaves the destination equal to the
destination after the first run. -/
theorem idempotence (src : Bucket) (plan1 plan2 : FaultPlan) (dst : Bucket)
    (listing : List ObjectInfo)
    (h1 : ∀ r ∈ (syncLoop src plan1 dst listing).reports, r.outcome.isFailed = false)
    (h2 : ∀ i, i < listing.length → (plan2 i).stat = none) :
    (syncLoop src plan2 (syncLoop src plan1 dst listing).dst listing).reports.map Report.outcome =
        listing.map (fun _ => Outcome.skipped) ∧
      (∀ k, Event.getObject k ∉
        (syncLoop src plan2 (syncLoop src plan1 dst listing).dst listing).events) ∧
      (∀ k body size, Event.putObject k body size ∉
        (syncLoop src plan2 (syncLoop src plan1 dst listing).dst listing).events) ∧
      (syncLoop src plan2 (syncLoop src plan1 dst listing).dst listing).dst =
        (syncLoop src plan1 dst listing).dst := by
  have hp := syncLoop_listed_present src plan1 dst listing h1
  rw [syncLoop_all_skipped src plan2 _ listing hp h2]
  refine ⟨?_, ?_, ?_, rfl⟩
  · simp [skipReport, Function.comp_def]
  · intro k
    simp [Run.events, skipReport, checkEvents, Function.comp_def]
  · intro k body size
    simp [Run.events, skipReport, checkEvents, Function.comp_def]

/-- C6 at the source {a.txt, b.txt} and the destination {a.txt}: the second run
skips both keys and changes nothing. -/
theorem idempotence_witness :
    (∀ r ∈ (syncLoop srcAB FaultPlan.clean dstA listAB).reports, r.outcome.isFailed = false) ∧
      (syncLoop srcAB FaultPlan.clean (syncLoop srcAB FaultPlan.clean dstA listAB).dst
          listAB).reports.map Report.outcome = [.skipped, .skipped] ∧
      (syncLoop srcAB FaultPlan.clean (syncLoop srcAB FaultPlan.clean dstA listAB).dst
          listAB).dst = (syncLoop srcAB FaultPlan.clean dstA listAB).dst :=
  ⟨by decide,
    (idempotence srcAB FaultPlan.clean FaultPlan.clean dstA listAB (by decide)
      (fun _ _ => rfl)).1,
    (idempotence srcAB FaultPlan.clean FaultPlan.clean dstA listAB (by decide)
      (fun _ _ => rfl)).2.2.2⟩

/-- C7, as stated, fails: `a.txt` is in the destination with bytes of its own,
its existence check is refused, and the loop overwrites it with the source's
bytes. -/
theorem stat_error_overwrites_destination :
    dstA.get "a.txt" = some [9] ∧
      statObject dstA (faultAt 0 statDenied 0) "a.txt" = .error (.other "permission denied") ∧
      (syncLoop srcAB (faultAt 0 statDenied) dstA listAB).dst.get "a.txt" = some [1, 2] := by
  refine ⟨by decide, rfl, by decide⟩

/-- A key in the destination whose existence checks do not fail keeps its
bytes to the end of the loop. -/
theorem syncLoop_keeps_bytes (src : Bucket) (plan : FaultPlan) (dst : Bucket)
    (listing : List ObjectInfo) (k : Key) (v : Bytes) (hk : dst.get k = some v)
    (hstat : ∀ i o, listing[i]? = some o → o.Key = k → (plan i).stat = none) :
    (syncLoop src plan dst listing).dst.get k = some v := by
  induction listing generalizing plan dst with
  | nil => exact hk
  | cons o rest ih =>
    rw [syncLoop_cons]
    apply ih
    · by_cases hkey : k = o.Key
      · have hs : statObject dst (plan 0) o.Key = .ok () :=
          (statObject_ok _ _ _).2 ⟨hstat 0 o (by simp) hkey.symm, v, hkey ▸ hk⟩
        rcases syncObject_cases src (plan 0) dst o with ⟨_, _, h⟩ | ⟨_, _, h⟩ |
          ⟨_, _, _, hs', _⟩ | ⟨_, _, _, _, hs', _⟩ | ⟨_, _, _, _, hs', _⟩ | ⟨_, _, _, hs', _⟩
        · rw [h]; exact hk
        · rw [h]; exact hk
        all_goals (rw [hs] at hs'; cases hs')
      · rw [syncObject_get_other _ _ _ _ _ hkey]
        exact hk
    · intro i o' ho' hkey
      exact hstat (i + 1) o' (by simpa using ho') hkey

/-- C7, amended.  A key that is in the destination before the run is still in
it after the run, holding its old bytes or the source's bytes for that key; it
holds its old bytes, whatever the source holds and also when the key is not
listed, provided no existence check of that key fails during the run. -/
theorem destination_kept (src : Bucket) (plan : FaultPlan) (dst : Bucket)
    (listing : List ObjectInfo) (k : Key) (v : Bytes) (hk : dst.get k = some v) :
    ((syncLoop src plan dst listing).dst.get k = some v ∨
        ∃ body, src.get k = some body ∧
          (syncLoop src plan dst listing).dst.get k = some body) ∧
      ((∀ i o, listing[i]? = some o → o.Key = k → (plan i).stat = none) →
        (syncLoop src plan dst listing).dst.get k = some v) := by
  refine ⟨?_, syncLoop_keeps_bytes src plan dst listing k v hk⟩
  rcases syncLoop_get src plan dst listing k with h | h
  · left; rw [h, hk]
  · right; exact h

/-- C7 amended, at a destination whose `a.txt` differs from the source's: it is
kept as it is. -/
theorem destination_kept_witness :
    dstA.get "a.txt" = some [9] ∧ srcAB.get "a.txt" = some [1, 2] ∧
      (syncLoop srcAB FaultPlan.clean dstA listAB).dst.get "a.txt" = some [9] :=
  ⟨by decide, by decide,
    (destination_kept srcAB FaultPlan.clean dstA listAB "a.txt" [9] (by decide)).2
      (fun _ _ _ _ => rfl)⟩

/-- The destination changes in an iteration exactly when the entry ends as
transferred. -/
theorem syncObject_dst_outcome (src : Bucket) (ft : Faults) (dst : Bucket) (o : ObjectInfo) :
    ((syncObject src ft dst o).outcome ≠ .transferred ∧ (syncObject src ft dst o).dst = dst) ∨
      ∃ body, src.get o.Key = some body ∧
        (syncObject src ft dst o).outcome = .transferred ∧
        (syncObject src ft dst o).dst = dst.put o.Key body := by
  rcases syncObject_cases src ft dst o with ⟨_, _, h⟩ | ⟨_, _, h⟩ | ⟨_, _, _, _, _, h⟩ |
    ⟨_, _, _, _, _, _, _, h⟩ | ⟨_, _, _, _, _, _, _, _, _, h⟩ | ⟨_, body, _, _, _, _, hs, _, h⟩
  · left; rw [h]; simp
  · left; rw [h]; simp
  · left; rw [h]; simp
  · left; rw [h]; simp
  · left; rw [h]; simp
  · right; exact ⟨body, hs, by rw [h], by rw [h]⟩

/-- What an iteration does and how it ends depends on the destination only
through the object under the entry's key. -/
theorem syncObject_congr (src : Bucket) (ft : Faults) (dstA dstB : Bucket) (o : ObjectInfo)
    (hget : dstA.get o.Key = dstB.get o.Key) :
    (syncObject src ft dstA o).outcome = (syncObject src ft dstB o).outcome ∧
      (syncObject src ft dstA o).events = (syncObject src ft dstB o).events := by
  have hs : statObject dstA ft o.Key = statObject dstB ft o.Key := by
    simp [statObject, hget]
  cases hErr : o.Err with
  | some e => simp [syncObject, hErr]
  | none =>
    cases hstat : statObject dstB ft o.Key with
    | ok u => simp [syncObject, hErr, hs, hstat]
    | error e0 =>
      cases hg : ft.get with
      | some e => simp [syncObject, hErr, hs, hstat, getObject, hg]
      | none =>
        cases hcopy : ioCopy ⟨src.get o.Key, ft.read⟩ with
        | mk buf err =>
          cases err with
          | some e => simp [syncObject, hErr, hs, hstat, getObject, hg, hcopy]
          | none =>
            cases hput : ft.put with
            | some e => simp [syncObject, hErr, hs, hstat, getObject, hg, hcopy, putObject, hput]
            | none => simp [syncObject, hErr, hs, hstat, getObject, hg, hcopy, putObject, hput]

/-- Two destinations that agree away from `K` still agree away from `K` after
an iteration on the same entry under the same faults, when the entry's key is
not `K`. -/
theorem syncObject_agree (src : Bucket) (ft : Faults) (dstA dstB : Bucket) (o : ObjectInfo)
    (K : Key) (hagree : ∀ k, k ≠ K → dstA.get k = dstB.get k) (ho : o.Key ≠ K) :
    ∀ k, k ≠ K → (syncObject src ft dstA o).dst.get k = (syncObject src ft dstB o).dst.get k := by
  intro k hk
  have hc := (syncObject_congr src ft dstA dstB o (hagree _ ho)).1
  rcases syncObject_dst_outcome src ft dstA o with ⟨hnA, hA⟩ | ⟨body, hsA, htA, hA⟩ <;>
  rcases syncObject_dst_outcome src ft dstB o with ⟨hnB, hB⟩ | ⟨body', hsB, htB, hB⟩
  · rw [hA, hB]; exact hagree k hk
  · rw [hc] at hnA; exact absurd htB hnA
  · rw [← hc] at hnB; exact absurd htA hnB
  · have hbody : body = body' := by
      rw [hsA] at hsB
      exact Option.some.inj hsB
    subst hbody
    rw [hA, hB]
    by_cases hkey : k = o.Key
    · subst hkey
      rw [Bucket.get_put_same, Bucket.get_put_same]
    · rw [Bucket.get_put_other _ _ _ _ hkey, Bucket.get_put_other _ _ _ _ hkey]
      exact hagree k hk

/-- Two runs over the same listing whose faults differ only at entries of key
`K`, from destinations that agree away from `K`: the destinations agree away
from `K` at the end, and every entry of another key has the same report
contents in both. -/
theorem syncLoop_isolated (src : Bucket) (planA planB : FaultPlan) (dstA dstB : Bucket)
    (listing : List ObjectInfo) (K : Key)
    (hagree : ∀ k, k ≠ K → dstA.get k = dstB.get k)
    (hplan : ∀ i o, listing[i]? = some o → o.Key ≠ K → planA i = planB i) :
    (∀ k, k ≠ K → (syncLoop src planA dstA listing).dst.get k =
        (syncLoop src planB dstB listing).dst.get k) ∧
      ∀ (i : Nat) (o : ObjectInfo), listing[i]? = some o → o.Key ≠ K →
        ∃ rA rB : Report, (syncLoop src planA dstA listing).reports[i]? = some rA ∧
          (syncLoop src planB dstB listing).reports[i]? = some rB ∧
          rA.outcome = rB.outcome ∧ rA.events = rB.events ∧
          rA.before.get o.Key = rB.before.get o.Key ∧
          rA.dst.get o.Key = rB.dst.get o.Key := by
  induction listing generalizing planA planB dstA dstB with
  | nil =>
    refine ⟨hagree, ?_⟩
    intro i o ho
    simp at ho
  | cons o' rest ih =>
    have hstep : ∀ k, k ≠ K → (syncObject src (planA 0) dstA o').dst.get k =
        (syncObject src (planB 0) dstB o').dst.get k := by
      by_cases hK : o'.Key = K
      · intro k hk
        have hne : k ≠ o'.Key := by rw [hK]; exact hk
        rw [syncObject_get_other _ _ _ _ _ hne, syncObject_get_other _ _ _ _ _ hne]
        exact hagree k hk
      · rw [hplan 0 o' (by simp) hK]
        exact syncObject_agree src _ dstA dstB o' K hagree hK
    have hrest := ih (planA.shift 1) (planB.shift 1) _ _ hstep
      (fun i o ho hK => hplan (i + 1) o (by simpa using ho) hK)
    rw [syncLoop_cons, syncLoop_cons]
    refine ⟨hrest.1, ?_⟩
    intro i o ho hK
    cases i with
    | zero =>
      simp only [List.getElem?_cons_zero, Option.some.injEq] at ho
      subst ho
      refine ⟨syncObject src (planA 0) dstA o', syncObject src (planB 0) dstB o',
        by simp, by simp, ?_⟩
      rw [hplan 0 o' (by simp) hK]
      have hc := syncObject_congr src (planB 0) dstA dstB o' (hagree _ hK)
      refine ⟨hc.1, hc.2, ?_, ?_⟩
      · rw [syncObject_before, syncObject_before]
        exact hagree _ hK
      · exact syncObject_agree src _ dstA dstB o' K hagree hK _ hK
    | succ n =>
      simp only [List.getElem?_cons_succ] at ho ⊢
      exact hrest.2 n o ho hK

/-- What the loop body does for an entry without an enumeration error: the
existence check comes first; a key found is skipped; a key that is absent or
whose check fails is fetched, its body is read once `GetObject` has succeeded,
the whole payload is put once the read has succeeded, and the entry ends as
transferred with the payload in the destination once the put has succeeded. -/
theorem syncObject_completes (src : Bucket) (ft : Faults) (dst : Bucket) (o : ObjectInfo)
    (hlist : o.Err = none) :
    [Event.stdout ("Syncing: " ++ o.Key ++ "\n"), Event.statObject o.Key] <+:
        (syncObject src ft dst o).events ∧
      (statObject dst ft o.Key = .ok () → (syncObject src ft dst o).outcome = .skipped) ∧
      (dst.get o.Key = none ∨ ft.stat ≠ none →
        [Event.stdout ("Syncing: " ++ o.Key ++ "\n"), Event.statObject o.Key,
            Event.getObject o.Key] <+: (syncObject src ft dst o).events ∧
          (ft.get = none →
            [Event.stdout ("Syncing: " ++ o.Key ++ "\n"), Event.statObject o.Key,
              Event.getObject o.Key, Event.readBody o.Key] <+:
                (syncObject src ft dst o).events) ∧
          ∀ body, ft.get = none → ft.read = none → src.get o.Key = some body →
            [Event.stdout ("Syncing: " ++ o.Key ++ "\n"), Event.statObject o.Key,
              Event.getObject o.Key, Event.readBody o.Key,
              Event.putObject o.Key body body.length] <+: (syncObject src ft dst o).events ∧
              (ft.put = none → (syncObject src ft dst o).outcome = .transferred ∧
                (syncObject src ft dst o).dst.get o.Key = some body)) := by
  have hnok : dst.get o.Key = none ∨ ft.stat ≠ none → statObject dst ft o.Key ≠ .ok () := by
    intro h hok
    obtain ⟨hs, v, hv⟩ := (statObject_ok _ _ _).1 hok
    rcases h with h | h
    · rw [h] at hv; cases hv
    · exact h hs
  rcases syncObject_cases src ft dst o with ⟨_, he, _⟩ | ⟨_, hs, h⟩ |
    ⟨_, e, _, hs, hg, h⟩ | ⟨_, buf, e, _, hs, hg, hc, h⟩ |
    ⟨_, body, e, _, hs, hg, hread, hsrc, hp, h⟩ | ⟨_, body, _, hs, hg, hread, hsrc, hp, h⟩
  · rw [hlist] at he; cases he
  · rw [h]
    refine ⟨⟨_, rfl⟩, fun _ => rfl, fun habs => absurd hs (hnok habs)⟩
  · rw [h]
    refine ⟨⟨_, rfl⟩, fun hok => ?_, fun _ => ⟨⟨_, rfl⟩, ?_, ?_⟩⟩
    · rw [hs] at hok; cases hok
    · intro hg'; rw [hg] at hg'; cases hg'
    · intro body hg'; rw [hg] at hg'; cases hg'
  · rw [h]
    refine ⟨⟨_, rfl⟩, fun hok => ?_, fun _ => ⟨⟨_, rfl⟩, ?_, ?_⟩⟩
    · rw [hs] at hok; cases hok
    · intro _; exact ⟨_, rfl⟩
    · intro body _ hread hsrc
      have := (ioCopy_ok (src.get o.Key) ft.read body).2 ⟨hread, hsrc⟩
      rw [this] at hc
      cases hc
  · rw [h]
    refine ⟨⟨_, rfl⟩, fun hok => ?_, fun _ => ⟨⟨_, rfl⟩, ?_, ?_⟩⟩
    · rw [hs] at hok; cases hok
    · intro _; exact ⟨_, rfl⟩
    · intro body' _ _ hsrc'
      rw [hsrc] at hsrc'
      cases hsrc'
      refine ⟨⟨_, rfl⟩, ?_⟩
      intro hp'; rw [hp] at hp'; cases hp'
  · rw [h]
    refine ⟨⟨_, rfl⟩, fun hok => ?_, fun _ => ⟨⟨_, rfl⟩, ?_, ?_⟩⟩
    · rw [hs] at hok; cases hok
    · intro _; exact ⟨_, rfl⟩
    · intro body' _ _ hsrc'
      rw [hsrc] at hsrc'
      cases hsrc'
      exact ⟨⟨_, rfl⟩, fun _ => ⟨rfl, Bucket.get_put_same _ _ _⟩⟩

/-- C1 (failure isolation).  Take a listing and a key `K`, and two runs whose
faults agree at every entry of a key other than `K` (in one the fetch or the
store of `K` fails, in the other it does not).  Both runs report every entry of
the listing.  Every entry of a key other than `K` is processed to completion:
its existence check is issued first; when the key is found it is skipped; when
it is absent (or its check fails) `GetObject` is issued next, the body is read
once the get has succeeded, the whole source payload is put under the key once
the read has succeeded, and the entry ends as transferred with the payload in
the destination once the put has succeeded.  Its outcome, calls, lines and
resulting object are the same in both runs, and the destinations agree at every
key other than `K` at the end. -/
theorem failure_isolation (src : Bucket) (planA planB : FaultPlan) (dst : Bucket)
    (listing : List ObjectInfo) (K : Key)
    (hplan : ∀ i o, listing[i]? = some o → o.Key ≠ K → planA i = planB i) :
    (syncLoop src planA dst listing).reports.length = listing.length ∧
      (∀ (i : Nat) (o : ObjectInfo), listing[i]? = some o → o.Key ≠ K →
        ∃ rA rB : Report, (syncLoop src planA dst listing).reports[i]? = some rA ∧
          (syncLoop src planB dst listing).reports[i]? = some rB ∧
          rA = syncObject src (planA i) rA.before o ∧
          (o.Err = none →
            [Event.stdout ("Syncing: " ++ o.Key ++ "\n"), Event.statObject o.Key] <+:
                rA.events ∧
              (statObject rA.before (planA i) o.Key = .ok () → rA.outcome = .skipped) ∧
              (rA.before.get o.Key = none ∨ (planA i).stat ≠ none →
                [Event.stdout ("Syncing: " ++ o.Key ++ "\n"), Event.statObject o.Key,
                    Event.getObject o.Key] <+: rA.events ∧
                  ((planA i).get = none →
                    [Event.stdout ("Syncing: " ++ o.Key ++ "\n"), Event.statObject o.Key,
                      Event.getObject o.Key, Event.readBody o.Key] <+: rA.events) ∧
                  ∀ body, (planA i).get = none → (planA i).read = none →
                    src.get o.Key = some body →
                    [Event.stdout ("Syncing: " ++ o.Key ++ "\n"), Event.statObject o.Key,
                      Event.getObject o.Key, Event.readBody o.Key,
                      Event.putObject o.Key body body.length] <+: rA.events ∧
                      ((planA i).put = none → rA.outcome = .transferred ∧
                        rA.dst.get o.Key = some body))) ∧
          rA.outcome = rB.outcome ∧ rA.events = rB.events ∧
          rA.dst.get o.Key = rB.dst.get o.Key) ∧
      ∀ k, k ≠ K → (syncLoop src planA dst listing).dst.get k =
        (syncLoop src planB dst listing).dst.get k := by
  have h := syncLoop_isolated src planA planB dst dst listing K (fun _ _ => rfl) hplan
  refine ⟨syncLoop_reports_length _ _ _ _, ?_, h.1⟩
  intro i o ho hK
  obtain ⟨rA, rB, hA, hB, hout, hev, _, hdst⟩ := h.2 i o ho hK
  have hrep := syncLoop_report src planA dst listing i o rA ho hA
  refine ⟨rA, rB, hA, hB, hrep, ?_, hout, hev, hdst⟩
  intro he
  have hc := syncObject_completes src (planA i) rA.before o he
  rw [← hrep] at hc
  exact hc

/-- C1 at the listing a.txt, b.txt into an empty destination: the upload of
`a.txt` fails in one run and not in the other, and in both `b.txt` is checked,
fetched, read and put whole, and ends as transferred. -/
theorem failure_isolation_witness :
    (syncLoop srcAB (faultAt 0 putBroken) [] listAB).reports.map Report.outcome =
        [.putFailed (.other "boom"), .transferred] ∧
      (syncLoop srcAB FaultPlan.clean [] listAB).reports.map Report.outcome =
        [.transferred, .transferred] ∧
      ∃ rA rB : Report, (syncLoop srcAB (faultAt 0 putBroken) [] listAB).reports[1]? = some rA ∧
        (syncLoop srcAB FaultPlan.clean [] listAB).reports[1]? = some rB ∧
        [Event.stdout ("Syncing: " ++ "b.txt" ++ "\n"), Event.statObject "b.txt",
          Event.getObject "b.txt", Event.readBody "b.txt",
          Event.putObject "b.txt" [3, 4, 5] 3] <+: rA.events ∧
        rA.outcome = .transferred ∧ rA.dst.get "b.txt" = some [3, 4, 5] ∧
        rA.outcome = rB.outcome ∧ rA.events = rB.events := by
  refine ⟨by decide, by decide, ?_⟩
  obtain ⟨rA, rB, hA, hB, _, hdone, hout, hev, _⟩ :=
    (failure_isolation srcAB (faultAt 0 putBroken) FaultPlan.clean [] listAB "a.txt"
      (by
        intro i o ho hK
        match i, ho with
        | 0, ho =>
          simp [listAB] at ho
          subst ho
          exact absurd rfl hK
        | 1, _ => rfl
        | n + 2, ho => simp [listAB] at ho)).2.1 1 ⟨"b.txt", none⟩ (by decide) (by decide)
  have hA' : (syncLoop srcAB (faultAt 0 putBroken) [] listAB).reports[1]? =
      some ⟨[], [("b.txt", [3, 4, 5])],
        [.stdout "Syncing: b.txt\n", .statObject "b.txt", .getObject "b.txt", .readBody "b.txt",
          .putObject "b.txt" [3, 4, 5] 3, .stdout "Successfully synced: b.txt\n"],
        .transferred⟩ := by decide
  have hbefore : rA.before.get "b.txt" = none := by
    rw [hA'] at hA
    cases hA
    rfl
  have hput := ((hdone rfl).2.2 (Or.inl hbefore)).2.2 [3, 4, 5] rfl rfl rfl
  exact ⟨rA, rB, hA, hB, hput.1, (hput.2 rfl).1, (hput.2 rfl).2, hout, hev⟩

/-- The loop over a stream in two parts is the loop over the first part followed
by the loop over the second from where the first ended. -/
theorem syncLoop_append (src : Bucket) (plan : FaultPlan) (dst : Bucket)
    (pre post : List ObjectInfo) :
    syncLoop src plan dst (pre ++ post) =
      ⟨(syncLoop src (plan.shift pre.length) (syncLoop src plan dst pre).dst post).dst,
        (syncLoop src plan dst pre).reports ++
          (syncLoop src (plan.shift pre.length) (syncLoop src plan dst pre).dst post).reports⟩ := by
  induction pre generalizing plan dst with
  | nil => rfl
  | cons o rest ih =>
    have hshift : (plan.shift 1).shift rest.length = plan.shift (rest.length + 1) := by
      funext i
      simp [FaultPlan.shift, Nat.add_assoc]
    simp only [List.cons_append, syncLoop_cons, ih, hshift, List.length_cons]

/-- C4, as stated, fails: the source holds `a`, `b` and `c` and the listing
breaks after `b`.  The run is not aborted: `main` logs the error as its last
line and ends as it ends after a complete listing, with `c` missing from the
destination. -/
theorem list_error_ends_as_finished :
    (main envListError).exit = .finished ∧
      (main { envListError with listing := [⟨"a", none⟩, ⟨"b", none⟩] }).exit = .finished ∧
      (main envListError).events.getLast? =
        some (.log "Failed to list object: listing interrupted") ∧
      srcABC.get "c" = some [3] ∧ (main envListError).dst.get "c" = none := by
  refine ⟨by decide, by decide, by decide, by decide, by decide⟩

/-- C4, amended.  An enumeration error is not fatal to the run.  On a stream
that ends with an entry carrying an enumeration error, the loop logs that entry
as `Failed to list object: <error>`, issues no stat, get or put for it and
leaves the destination as the entries before it left it; nothing is attempted
after it.  `main` then ends as it ends on the stream without the error entry:
same exit, same destination, and the same calls and lines followed by that one
log line. -/
theorem list_error_is_not_fatal (env : Env) (pre : List ObjectInfo) (bad : ObjectInfo)
    (e : S3Error) (hlisting : env.listing = pre ++ [bad]) (hbad : bad.Err = some e) :
    syncLoop env.src env.plan env.dst env.listing =
        ⟨(syncLoop env.src env.plan env.dst pre).dst,
          (syncLoop env.src env.plan env.dst pre).reports ++
            [⟨(syncLoop env.src env.plan env.dst pre).dst,
              (syncLoop env.src env.plan env.dst pre).dst,
              [.log ("Failed to list object: " ++ e.text)], .listFailed e⟩]⟩ ∧
      (main env).exit = (main { env with listing := pre }).exit ∧
      (main env).dst = (main { env with listing := pre }).dst ∧
      ((main env).exit = .finished →
        (main env).events = (main { env with listing := pre }).events ++
          [.log ("Failed to list object: " ++ e.text)]) := by
  have hstep : ∀ ft d, syncObject env.src ft d bad =
      ⟨d, d, [.log ("Failed to list object: " ++ e.text)], .listFailed e⟩ := by
    intro ft d
    simp [syncObject, hbad]
  have hloop : syncLoop env.src env.plan env.dst env.listing =
      ⟨(syncLoop env.src env.plan env.dst pre).dst,
        (syncLoop env.src env.plan env.dst pre).reports ++
          [⟨(syncLoop env.src env.plan env.dst pre).dst,
            (syncLoop env.src env.plan env.dst pre).dst,
            [.log ("Failed to list object: " ++ e.text)], .listFailed e⟩]⟩ := by
    rw [hlisting, syncLoop_append, syncLoop_cons, hstep]
    rfl
  refine ⟨hloop, ?_⟩
  unfold main
  simp only [hloop]
  cases env.dotenvLoad with
  | some msg => simp
  | none =>
    simp only
    split
    · simp
    · split
      · simp
      · split
        · simp
        · simp [Run.events]

/-- C4 amended, at the stream `a`, `b`, error over a source that also holds
`c`. -/
theorem list_error_is_not_fatal_witness :
    envListError.listing = [⟨"a", none⟩, ⟨"b", none⟩] ++
        [⟨"", some (.other "listing interrupted")⟩] ∧
      (main envListError).exit = .finished ∧
      (main envListError).events =
        (main { envListError with listing := [⟨"a", none⟩, ⟨"b", none⟩] }).events ++
          [.log ("Failed to list object: " ++ (S3Error.other "listing interrupted").text)] :=
  ⟨rfl, by decide,
    (list_error_is_not_fatal envListError [⟨"a", none⟩, ⟨"b", none⟩]
      ⟨"", some (.other "listing interrupted")⟩ (.other "listing interrupted") rfl rfl).2.2.2
      (by decide)⟩

/-- C9, as stated, fails: the eight required settings are all set, loading the
`.env` file fails, and `main` aborts with a fatal error before any client is
built and before any call is issued. -/
theorem load_failure_aborts_with_settings_present :
    envLoadFails.getenv "REMOTE_BUCKET" ≠ "" ∧ envLoadFails.getenv "LOCAL_BUCKET" ≠ "" ∧
      envLoadFails.getenv "REMOTE_ACCESS_KEY" ≠ "" ∧
      envLoadFails.getenv "REMOTE_SECRET_KEY" ≠ "" ∧
      envLoadFails.getenv "LOCAL_ACCESS_KEY" ≠ "" ∧
      envLoadFails.getenv "LOCAL_SECRET_KEY" ≠ "" ∧
      envLoadFails.getenv "LOCAL_ENDPOINT" ≠ "" ∧ envLoadFails.getenv "REMOTE_ENDPOINT" ≠ "" ∧
      (main envLoadFails).exit = .loadEnvFailed "open .env: no such file or directory" ∧
      (main envLoadFails).exit ≠ .finished ∧ (main envLoadFails).events = [] := by
  refine ⟨by decide, by decide, by decide, by decide, by decide, by decide, by decide,
    by decide, by decide, by decide, by decide⟩

/-- When `main` ends with `Missing required environment variables`: the `.env`
file was loaded and one of the eight required settings is empty. -/
theorem main_missing_iff (env : Env) :
    (main env).exit = .missingEnv ↔
      env.dotenvLoad = none ∧
        (env.getenv "REMOTE_BUCKET" = "" ∨ env.getenv "LOCAL_BUCKET" = "" ∨
          env.getenv "REMOTE_ACCESS_KEY" = "" ∨ env.getenv "REMOTE_SECRET_KEY" = "" ∨
          env.getenv "LOCAL_ACCESS_KEY" = "" ∨ env.getenv "LOCAL_SECRET_KEY" = "" ∨
          env.getenv "LOCAL_ENDPOINT" = "" ∨ env.getenv "REMOTE_ENDPOINT" = "") := by
  unfold main
  cases hload : env.dotenvLoad with
  | some msg => simp
  | none =>
    simp only [true_and]
    split
    · rename_i h
      simp only [Bool.or_eq_true, beq_iff_eq] at h
      simp only [true_iff]
      tauto
    · rename_i h
      simp only [Bool.or_eq_true, beq_iff_eq] at h
      have hne : ¬ (env.getenv "REMOTE_BUCKET" = "" ∨ env.getenv "LOCAL_BUCKET" = "" ∨
          env.getenv "REMOTE_ACCESS_KEY" = "" ∨ env.getenv "REMOTE_SECRET_KEY" = "" ∨
          env.getenv "LOCAL_ACCESS_KEY" = "" ∨ env.getenv "LOCAL_SECRET_KEY" = "" ∨
          env.getenv "LOCAL_ENDPOINT" = "" ∨ env.getenv "REMOTE_ENDPOINT" = "") := by tauto
      simp only [hne, iff_false]
      split
      · simp
      · split
        · simp
        · simp

/-- How `main` ends and what it has issued, by the outcome of the `.env` load,
the validation and the two client constructions. -/
theorem main_cases (env : Env) :
    (∃ msg, env.dotenvLoad = some msg ∧ (main env).exit = .loadEnvFailed msg ∧
        (main env).events = [] ∧ (main env).dst = env.dst) ∨
      (env.dotenvLoad = none ∧ (main env).exit = .missingEnv ∧ (main env).events = [] ∧
        (main env).dst = env.dst) ∨
      (env.dotenvLoad = none ∧ (main env).exit ≠ .missingEnv ∧
        (∀ msg, (main env).exit ≠ .loadEnvFailed msg) ∧ (main env).events ≠ []) := by
  unfold main
  cases hload : env.dotenvLoad with
  | some msg => left; exact ⟨msg, rfl, rfl, rfl, rfl⟩
  | none =>
    right
    simp only
    split
    · left; exact ⟨trivial, rfl, rfl, rfl⟩
    · right
      split
      · simp
      · split
        · simp
        · simp

/-- C9, amended.  `main` aborts with a fatal error before any client is built
and before any list, stat, get or put is issued if and only if loading the
`.env` file fails or one of the eight settings source bucket, destination
bucket, source access key, source secret key, destination access key,
destination secret key, source endpoint, destination endpoint is empty; the
destination is then untouched.  The abort is `Missing required environment
variables` exactly when the file was loaded and one of the eight is empty, and
`Error loading .env file` exactly when the load fails.  The regions and the
TLS flags play no part. -/
theorem config_validation (env : Env) :
    (((main env).exit ≠ .finished ∧ (main env).events = [] ∧ (main env).dst = env.dst) ↔
        (env.dotenvLoad ≠ none ∨
          env.getenv "REMOTE_BUCKET" = "" ∨ env.getenv "LOCAL_BUCKET" = "" ∨
          env.getenv "REMOTE_ACCESS_KEY" = "" ∨ env.getenv "REMOTE_SECRET_KEY" = "" ∨
          env.getenv "LOCAL_ACCESS_KEY" = "" ∨ env.getenv "LOCAL_SECRET_KEY" = "" ∨
          env.getenv "LOCAL_ENDPOINT" = "" ∨ env.getenv "REMOTE_ENDPOINT" = "")) ∧
      ((main env).exit = .missingEnv ↔
        env.dotenvLoad = none ∧
          (env.getenv "REMOTE_BUCKET" = "" ∨ env.getenv "LOCAL_BUCKET" = "" ∨
            env.getenv "REMOTE_ACCESS_KEY" = "" ∨ env.getenv "REMOTE_SECRET_KEY" = "" ∨
            env.getenv "LOCAL_ACCESS_KEY" = "" ∨ env.getenv "LOCAL_SECRET_KEY" = "" ∨
            env.getenv "LOCAL_ENDPOINT" = "" ∨ env.getenv "REMOTE_ENDPOINT" = "")) ∧
      (∀ msg, (main env).exit = .loadEnvFailed msg ↔ env.dotenvLoad = some msg) := by
  have hmiss := main_missing_iff env
  refine ⟨?_, hmiss, ?_⟩
  · rcases main_cases env with ⟨msg, hload, hexit, hev, hdst⟩ | ⟨hload, hexit, hev, hdst⟩ |
      ⟨hload, hnm, _, hev⟩
    · constructor
      · intro _
        left
        rw [hload]
        simp
      · intro _
        refine ⟨?_, hev, hdst⟩
        rw [hexit]
        simp
    · constructor
      · intro _
        right
        exact (hmiss.1 hexit).2
      · intro _
        refine ⟨?_, hev, hdst⟩
        rw [hexit]
        simp
    · constructor
      · intro h
        exact absurd h.2.1 hev
      · intro h
        rcases h with h | h
        · exact absurd hload h
        · exact absurd (hmiss.2 ⟨hload, h⟩) hnm
  · intro msg
    rcases main_cases env with ⟨msg', hload, hexit, _, _⟩ | ⟨hload, hexit, _, _⟩ |
      ⟨hload, _, hnl, _⟩
    · rw [hexit, hload]
      simp
    · rw [hexit, hload]
      simp
    · rw [hload]
      constructor
      · intro h; exact absurd h (hnl msg)
      · intro h; cases h

/-- C9 amended, at an environment that lacks only the destination secret key,
at one whose `.env` load fails, and at one that sets the eight required
settings and leaves the regions and TLS flags unset. -/
theorem config_validation_witness :
    (main envNoLocalSecret).exit = .missingEnv ∧
      ((main envLoadFails).exit ≠ .finished ∧ (main envLoadFails).events = [] ∧
        (main envLoadFails).dst = envLoadFails.dst) ∧
      envRequiredOnly.getenv "REMOTE_REGION" = "" ∧
      envRequiredOnly.getenv "LOCAL_USE_SSL" = "" ∧
      (main envRequiredOnly).exit = .finished :=
  ⟨(config_validation envNoLocalSecret).2.1.2
      ⟨rfl, Or.inr (Or.inr (Or.inr (Or.inr (Or.inr (Or.inl (by decide))))))⟩,
    (config_validation envLoadFails).1.2 (Or.inl (by decide)),
    by decide, by decide, by decide⟩

/-- C10 fails on the code: when the upload of `a.txt` fails, and when the read
of its body fails, the line logged for it is the fixed text and the error, and
does not contain the key, while the line logged for a failing `GetObject`
does. -/
theorem failure_line_omits_key :
    (syncLoop srcAB (faultAt 0 putBroken) [] [⟨"a.txt", none⟩]).events =
        [.stdout "Syncing: a.txt\n", .statObject "a.txt", .getObject "a.txt",
          .readBody "a.txt", .putObject "a.txt" [1, 2] 2,
          .log "Failed to upload to local bucket: boom"] ∧
      ¬ ("a.txt".data <:+: "Failed to upload to local bucket: boom".data) ∧
      (syncLoop srcAB (faultAt 0 readBroken) [] [⟨"a.txt", none⟩]).events =
        [.stdout "Syncing: a.txt\n", .statObject "a.txt", .getObject "a.txt",
          .readBody "a.txt", .log "Failed to read remote object body: connection reset"] ∧
      ¬ ("a.txt".data <:+: "Failed to read remote object body: connection reset".data) ∧
      (syncLoop srcAB (faultAt 0 ⟨none, some (.other "boom"), none, none⟩) []
          [⟨"a.txt", none⟩]).events =
        [.stdout "Syncing: a.txt\n", .statObject "a.txt", .getObject "a.txt",
          .log "Failed to get remote object a.txt: boom"] := by
  refine ⟨by decide, by decide, by decide, by decide, by decide⟩

end S3Sync
